import Mathlib

/-!
Verification development for the `gateway-sf-text-sentiment` stack
(`src/main.ts`): an API Gateway REST endpoint that starts a Step Functions
execution running language detection, an optional translation to Portuguese,
and sentiment analysis.

The embedding models:
* the JSON documents threaded through the state machine,
* each state of the workflow (`detectLanguage`, `formatResult`,
  `translateNonPTLanguage`, `translateText`, `formatTranslatedResult`,
  `detectSentiment`) with the JsonPath parameter bindings, `resultPath` and
  `outputPath` declared in the source,
* the workflow graph (`Chain.start(...).next(...)` and the `Choice` rules),
* the request schema (`requestModels`) and the request validator,
* the VTL response-mapping template of `postIntegration`.
-/

/-- JSON values.  Numbers are modelled as integers: the only numeric fields
the claims touch (`Score`, `startDate`) are used solely through ordering and
string rendering, neither of which depends on fractional parts. -/
inductive Json where
  | jstr : String → Json
  | jnum : Int → Json
  | jbool : Bool → Json
  | jnull : Json
  | jarr : List Json → Json
  | jobj : List (String × Json) → Json

/-- Lookup of a key in an object's field list (first match wins). -/
def lookupKV : List (String × Json) → String → Option Json
  | [], _ => none
  | (k', v) :: rest, k => if k' = k then some v else lookupKV rest k

/-- Set a key in an object's field list, replacing the first occurrence or
appending at the end. -/
def setKV : List (String × Json) → String → Json → List (String × Json)
  | [], k, v => [(k, v)]
  | (k', v') :: rest, k, v =>
      if k' = k then (k, v) :: rest else (k', v') :: setKV rest k v

/-- Read field `k` of a JSON object (JsonPath `$.k`). -/
def Json.getField : Json → String → Option Json
  | .jobj kvs, k => lookupKV kvs k
  | _, _ => none

/-- Read field `k` and require a string value (CDK `JsonPath.stringAt`). -/
def Json.getStr (j : Json) (k : String) : Option String :=
  match j.getField k with
  | some (.jstr s) => some s
  | _ => none

/-- Index into a JSON array (JsonPath `[i]`). -/
def Json.getIndex : Json → Nat → Option Json
  | .jarr xs, i => xs.get? i
  | _, _ => none

/-- Write value `v` at field `k` of a JSON object (Step Functions
`resultPath: '$.k'` merge); fails on a non-object document. -/
def Json.setField : Json → String → Json → Option Json
  | .jobj kvs, k, v => some (.jobj (setKV kvs k v))
  | _, _, _ => none

/-! ## Workflow states (data semantics)

Each Step Functions state from `src/main.ts` becomes a function on JSON
documents.  External capabilities (Comprehend, Translate) are parameters:
the embedding never fixes their answers, only their documented shapes.
A state that would raise a Step Functions runtime error (missing JsonPath,
non-string value passed to `JsonPath.stringAt`, non-object root for a
`resultPath` merge) returns `none`. -/

/-- `DetectDominantLanguage` task: parameters `{Text: stringAt '$.txt'}`,
`resultPath: '$.result'`, `outputPath: '$'` — the capability response is
merged into the input document under `result`. -/
def detectLanguage (cap : String → Json) (d : Json) : Option Json :=
  match d.getStr "txt" with
  | some t => d.setField "result" (cap t)
  | none => none

/-- `FormatResult` pass state: parameters
`{Text.$: '$.txt', Language.$: '$.result.Languages[0].LanguageCode'}` —
the output document is exactly these two fields. -/
def formatResult (d : Json) : Option Json :=
  match d.getField "txt",
        (d.getField "result").bind (fun r =>
          (r.getField "Languages").bind (fun ls =>
            (ls.getIndex 0).bind (fun e => e.getField "LanguageCode"))) with
  | some t, some lang => some (Json.jobj [("Text", t), ("Language", lang)])
  | _, _ => none

/-- `TranslateText` task: parameters `{Text: stringAt '$.Text',
SourceLanguageCode: stringAt '$.Language', TargetLanguageCode: 'pt'}`,
`resultPath: '$.result'`, `outputPath: '$'`. -/
def translateText (cap : Json → Json) (d : Json) : Option Json :=
  match d.getStr "Text", d.getStr "Language" with
  | some t, some l =>
      d.setField "result"
        (cap (Json.jobj
          [("Text", Json.jstr t),
           ("SourceLanguageCode", Json.jstr l),
           ("TargetLanguageCode", Json.jstr "pt")]))
  | _, _ => none

/-- `FormatTranslatedResult` pass state: parameters
`{Text.$: '$.result.TranslatedText', Language.$: '$.result.TargetLanguageCode'}`. -/
def formatTranslatedResult (d : Json) : Option Json :=
  match (d.getField "result").bind (fun r => r.getField "TranslatedText"),
        (d.getField "result").bind (fun r => r.getField "TargetLanguageCode") with
  | some t, some lang => some (Json.jobj [("Text", t), ("Language", lang)])
  | _, _ => none

/-- `DetectSentiment` task: parameters `{Text: stringAt '$.Text',
LanguageCode: stringAt '$.Language'}`; no `resultPath`, so the capability
response replaces the document. -/
def detectSentiment (cap : String → String → Json) (d : Json) : Option Json :=
  match d.getStr "Text", d.getStr "Language" with
  | some t, some l => some (cap t l)
  | _, _ => none

/-! ## The Choice state and the workflow graph -/

/-- The predicate of the first Choice rule,
`Condition.stringEquals('$.Language', 'pt')`: true exactly when the value
at `$.Language` is the string `"pt"`. -/
def stringEqualsLanguagePT (d : Json) : Bool :=
  match d.getField "Language" with
  | some (.jstr s) => s == "pt"
  | _ => false

/-- The states of the `SentimentAnalisys` state machine. -/
inductive SfState where
  | detectLanguage
  | formatResult
  | translateNonPTLanguage
  | translateText
  | formatTranslatedResult
  | detectSentiment
deriving DecidableEq, Repr

/-- The ordered rule list of the `TranslateNonPTLanguage` Choice: first
`stringEquals('$.Language','pt') → DetectSentiment`, then its negation
`→ TranslateText` (the two `.when` calls, in source order). -/
def translateNonPTLanguageRules : List ((Json → Bool) × SfState) :=
  [(stringEqualsLanguagePT, SfState.detectSentiment),
   (fun d => !(stringEqualsLanguagePT d), SfState.translateText)]

/-- Choice evaluation: rules are tried strictly in order, the first whose
predicate holds names the next state; with no match (and no `otherwise`
registered in the source) the Choice fails. -/
def evalChoice : List ((Json → Bool) × SfState) → Json → Option SfState
  | [], _ => none
  | (p, t) :: rest, d => if p d then some t else evalChoice rest d

/-- Successors of each state, from `translateText.next(formatTranslatedResult)
.next(detectSentiment)`, the two Choice rules, and
`Chain.start(detectLanguage).next(formatResult).next(translateNonPTLanguage)`.
The Choice lists its rule targets in rule order. -/
def nextStates : SfState → List SfState
  | .detectLanguage => [.formatResult]
  | .formatResult => [.translateNonPTLanguage]
  | .translateNonPTLanguage => [.detectSentiment, .translateText]
  | .translateText => [.formatTranslatedResult]
  | .formatTranslatedResult => [.detectSentiment]
  | .detectSentiment => []

/-- `PathEnd s u`: starting from state `s` and following graph edges, the
walk stops at `u`, a state with no successor. -/
inductive PathEnd : SfState → SfState → Prop where
  | last (s : SfState) : nextStates s = [] → PathEnd s s
  | step (s t u : SfState) : t ∈ nextStates s → PathEnd t u → PathEnd s u

/-- All maximal walks from a state, bounded by `fuel` edge steps. -/
def maximalPathsFrom : Nat → SfState → List (List SfState)
  | 0, s => [[s]]
  | n + 1, s =>
      match nextStates s with
      | [] => [[s]]
      | succs => succs.foldr
          (fun t acc => (maximalPathsFrom n t).map (s :: ·) ++ acc) []

/-- The document handed to `DetectSentiment` after the Choice: the Choice
routes by its rules; on the direct branch the document is unchanged, on the
translate branch it passes through `TranslateText` and
`FormatTranslatedResult`. -/
def docEnteringSentiment (cap : Json → Json) (d : Json) : Option Json :=
  match evalChoice translateNonPTLanguageRules d with
  | some SfState.detectSentiment => some d
  | some SfState.translateText => (translateText cap d).bind formatTranslatedResult
  | _ => none

/-- The response shape of the language-identification capability, as the
workflow reads it (`$.result.Languages[0].LanguageCode`) and as the contract
documents it: `{Languages: [{LanguageCode, Score}]}`, scores ordered
descending.  Scores are modelled as integers (only their order matters). -/
def langListToJson (l : List (String × Int)) : Json :=
  Json.jarr (l.map (fun p =>
    Json.jobj [("LanguageCode", Json.jstr p.1), ("Score", Json.jnum p.2)]))

/-- A full `DetectDominantLanguage` reply carrying the given language list. -/
def detectorResponse (l : List (String × Int)) : Json :=
  Json.jobj [("Languages", langListToJson l)]

/-- The first two states of the chain composed: `DetectDominantLanguage`
followed by the `FormatResult` projection. -/
def afterDetection (cap : String → Json) (d : Json) : Option Json :=
  (detectLanguage cap d).bind formatResult

/-! ## Request schema and gateway validation -/

/-- The shape built by `requestModels`: a draft-4 schema with a `type`, a
list of required field names, and per-field type constraints. -/
structure JsonSchemaModel where
  schemaType : String
  requiredFields : List String
  propertyTypes : List (String × String)

/-- The POST request model from `requestModels(rest, 'txt')`:
`{title: 'PostRequest', type: object, properties: {txt: {type: string}},
required: ['txt']}`. -/
def schemaPost : JsonSchemaModel :=
  JsonSchemaModel.mk "object" ["txt"] [("txt", "string")]

/-- The draft-4 primitive type name of a JSON value. -/
def jsonTypeOf : Json → String
  | .jstr _ => "string"
  | .jnum _ => "number"
  | .jbool _ => "boolean"
  | .jnull => "null"
  | .jarr _ => "array"
  | .jobj _ => "object"

/-- Draft-4 validation of a body against such a schema: the body has the
declared type, every required field is present, and every declared property
that is present has its declared type. -/
def validateAgainst (s : JsonSchemaModel) (b : Json) : Bool :=
  jsonTypeOf b == s.schemaType
    && s.requiredFields.all (fun k => (b.getField k).isSome)
    && s.propertyTypes.all (fun kv =>
        match b.getField kv.1 with
        | some v => jsonTypeOf v == kv.2
        | none => true)

/-! ## The response-mapping template of `postIntegration` -/

/-- An HTTP response: the effective status code and the body rendered as an
ordered list of (field, rendered string) pairs. -/
structure HttpResponse where
  status : Nat
  body : List (String × String)
deriving DecidableEq, Repr

/-- The `.trim()` applied by the template to `message` and `executionArn`:
leading and trailing whitespace removed.  Defined structurally on the
character list so that it evaluates by reduction. -/
def vtlTrim (s : String) : String :=
  String.mk
    (((s.data.dropWhile Char.isWhitespace).reverse.dropWhile
        Char.isWhitespace).reverse)

/-- Rendering of a JSON value by VTL string interpolation (only strings and
numbers occur in the StartExecution reply fields the template reads). -/
def renderValue : Json → String
  | .jstr s => s
  | .jnum n => toString n
  | _ => ""

/-- `$input.path('$.k')` used in string position: the field's rendering, or
the empty string when the field is absent (so the template's test
`$input.path('$.__type') != ""` holds exactly on replies carrying a
non-empty `__type`). -/
def inputPathStr (reply : Json) (k : String) : String :=
  match reply.getField k with
  | some v => renderValue v
  | none => ""

/-- The status written by `#set ($context.responseOverride.status = 500)`
in the error branch of the template (line inside `#if`). -/
def errorStatusOverride : Nat := 500

/-- The status written by `#set ($context.responseOverride.status = 500)`
in the success branch of the template (line inside `#else`). -/
def successStatusOverride : Nat := 500

/-- The `application/json` integration response template of
`postIntegration`: when `$input.path('$.__type')` is non-empty the body is
`{requestId, message}` (message trimmed) under the error status override,
otherwise `{requestId, executionArn, startDate}` (executionArn trimmed)
under the success status override. -/
def mapStartResponse (requestId : String) (reply : Json) : HttpResponse :=
  if inputPathStr reply "__type" ≠ "" then
    HttpResponse.mk errorStatusOverride
      [("requestId", requestId),
       ("message", vtlTrim (inputPathStr reply "message"))]
  else
    HttpResponse.mk successStatusOverride
      [("requestId", requestId),
       ("executionArn", vtlTrim (inputPathStr reply "executionArn")),
       ("startDate", inputPathStr reply "startDate")]

/-- Modelled from the spec: the RequestGateway's validation boundary, whose
enforcement (reject the body before the integration is reached) is API
Gateway behaviour, not code under `src/`.  A body failing `schemaPost`
validation is answered directly with an error response carrying a message;
only a validating body is forwarded to the `StartExecution` integration,
whose reply then passes through the response template. -/
def gatewayProcess (startExec : Json → Json) (requestId : String)
    (b : Json) : HttpResponse :=
  if validateAgainst schemaPost b then
    mapStartResponse requestId (startExec b)
  else
    HttpResponse.mk 500 [("requestId", requestId), ("message", "invalid request body")]

/-! ## Frame lemmas for the `resultPath` merge -/

theorem lookupKV_setKV_self (kvs : List (String × Json)) (k : String) (v : Json) :
    lookupKV (setKV kvs k v) k = some v := by
  induction kvs with
  | nil => simp [setKV, lookupKV]
  | cons kv rest ih =>
      obtain ⟨k', v'⟩ := kv
      by_cases hk : k' = k
      · subst hk; simp [setKV, lookupKV]
      · simp [setKV, lookupKV, hk, ih]

theorem lookupKV_setKV_ne (kvs : List (String × Json)) (k₀ : String) (v : Json)
    (k : String) (h : k ≠ k₀) :
    lookupKV (setKV kvs k₀ v) k = lookupKV kvs k := by
  induction kvs with
  | nil => simp [setKV, lookupKV, Ne.symm h]
  | cons kv rest ih =>
      obtain ⟨k', v'⟩ := kv
      by_cases hk : k' = k₀
      · subst hk
        simp [setKV, lookupKV, Ne.symm h]
      · by_cases hkk : k' = k
        · subst hkk; simp [setKV, lookupKV, hk]
        · simp [setKV, lookupKV, hk, hkk, ih]

theorem getField_setField_self (d d' : Json) (k : String) (v : Json)
    (h : d.setField k v = some d') : d'.getField k = some v := by
  cases d <;> simp [Json.setField] at h
  rw [← h]
  simpa [Json.getField] using lookupKV_setKV_self _ k v

theorem getField_setField_ne (d d' : Json) (k₀ : String) (v : Json)
    (hset : d.setField k₀ v = some d') (k : String) (h : k ≠ k₀) :
    d'.getField k = d.getField k := by
  cases d <;> simp [Json.setField] at hset
  rw [← hset]
  simpa [Json.getField] using lookupKV_setKV_ne _ k₀ v k h

/-! ## Sanity checks on the embedding -/

example : (Json.jobj [("txt", Json.jstr "oi")]).getStr "txt" = some "oi" := rfl

example : (Json.jobj [("a", Json.jnum 1)]).setField "b" Json.jnull
    = some (Json.jobj [("a", Json.jnum 1), ("b", Json.jnull)]) := rfl

example : validateAgainst schemaPost (Json.jobj [("txt", Json.jstr "hi")]) = true := rfl

example : validateAgainst schemaPost (Json.jobj [("txt", Json.jnum 3)]) = false := rfl

/-! ## Claims about the response-mapping template -/

/-- Claim C2: in the response-mapping template of `postIntegration`, the
success branch and the error branch set the same HTTP status override value
(`500` in both arms of the `#if`); consequently every mapped response
carries status 500. -/
theorem c2_same_status_override_in_both_branches :
    successStatusOverride = errorStatusOverride
      ∧ ∀ (rid : String) (reply : Json),
          (mapStartResponse rid reply).status = 500 := by
  refine ⟨rfl, fun rid reply => ?_⟩
  unfold mapStartResponse
  split <;> rfl

/-- Claim C1 (evaluation at the failing input): on a successful
`StartExecution` reply (no `__type` field) the template still answers with
status 500 — not the 200 the claim states — because the success branch also
executes `#set ($context.responseOverride.status = 500)`. -/
theorem c1_success_reply_still_gets_500 :
    mapStartResponse "req-1"
        (Json.jobj [("executionArn", Json.jstr "arn:aws:states:ex"),
                    ("startDate", Json.jnum 1700000000)])
      = HttpResponse.mk 500
          [("requestId", "req-1"),
           ("executionArn", "arn:aws:states:ex"),
           ("startDate", "1700000000")]
      ∧ (mapStartResponse "req-1"
          (Json.jobj [("executionArn", Json.jstr "arn:aws:states:ex"),
                      ("startDate", Json.jnum 1700000000)])).status ≠ 200 :=
  ⟨rfl, by decide⟩

/-- Claim C9: the template classifies the `StartExecution` reply as an error
exactly when the rendered `__type` field is non-empty; then the body is
`{requestId, message}` from the reply's (trimmed) `message`, and in every
other case the body is `{requestId, executionArn, startDate}` from the
reply's fields. -/
theorem c9_error_classified_by_type_field (rid : String) (reply : Json) :
    ((mapStartResponse rid reply).body
        = [("requestId", rid), ("message", vtlTrim (inputPathStr reply "message"))]
      ↔ inputPathStr reply "__type" ≠ "")
    ∧ (inputPathStr reply "__type" = "" →
        (mapStartResponse rid reply).body
          = [("requestId", rid),
             ("executionArn", vtlTrim (inputPathStr reply "executionArn")),
             ("startDate", inputPathStr reply "startDate")]) := by
  constructor
  · constructor
    · intro hbody hty
      rw [mapStartResponse, if_neg (by simp [hty])] at hbody
      simp at hbody
    · intro hty
      rw [mapStartResponse, if_pos hty]
  · intro hty
    rw [mapStartResponse, if_neg (by simp [hty])]

/-- Witness for C9 at a concrete successful reply. -/
theorem c9_error_classified_by_type_field_witness :
    (mapStartResponse "r"
        (Json.jobj [("executionArn", Json.jstr "arn:x"),
                    ("startDate", Json.jnum 5)])).body
      = [("requestId", "r"), ("executionArn", "arn:x"), ("startDate", "5")] :=
  (c9_error_classified_by_type_field "r"
      (Json.jobj [("executionArn", Json.jstr "arn:x"),
                  ("startDate", Json.jnum 5)])).2 rfl

/-! ## Claims about the Choice state -/

/-- Claim C4: for every document reaching the Choice, exactly one of its two
rules fires — `stringEquals('$.Language','pt')` routes to DetectSentiment and
its negation routes to TranslateText — so no document falls through unrouted
and none satisfies both rules. -/
theorem c4_choice_exhaustive_and_exclusive (d : Json) :
    (stringEqualsLanguagePT d = true ∨ (!stringEqualsLanguagePT d) = true)
    ∧ ¬(stringEqualsLanguagePT d = true ∧ (!stringEqualsLanguagePT d) = true)
    ∧ (stringEqualsLanguagePT d = true →
        evalChoice translateNonPTLanguageRules d = some SfState.detectSentiment)
    ∧ (stringEqualsLanguagePT d = false →
        evalChoice translateNonPTLanguageRules d = some SfState.translateText)
    ∧ evalChoice translateNonPTLanguageRules d ≠ none := by
  cases h : stringEqualsLanguagePT d <;>
    simp [evalChoice, translateNonPTLanguageRules, h]

/-- Witness for C4 at a document whose detected language is not `"pt"`. -/
theorem c4_choice_exhaustive_and_exclusive_witness :
    evalChoice translateNonPTLanguageRules
        (Json.jobj [("Language", Json.jstr "en")])
      = some SfState.translateText :=
  (c4_choice_exhaustive_and_exclusive
      (Json.jobj [("Language", Json.jstr "en")])).2.2.2.1 rfl

/-! ## Claims about the workflow graph -/

/-- Claim C8: the workflow graph is LanguageDetection → Projection → Choice →
(Translation → Projection | nothing) → SentimentDetection: every maximal walk
from the start state ends at DetectSentiment, no state follows
DetectSentiment, it is the sole terminal state, and the complete walks from
the start are exactly the two expected sequences. -/
theorem c8_graph_is_chain_ending_at_sentiment :
    (∀ u : SfState, PathEnd SfState.detectLanguage u → u = SfState.detectSentiment)
    ∧ nextStates SfState.detectSentiment = []
    ∧ (∀ s : SfState, nextStates s = [] → s = SfState.detectSentiment)
    ∧ maximalPathsFrom 6 SfState.detectLanguage =
        [[SfState.detectLanguage, SfState.formatResult,
          SfState.translateNonPTLanguage, SfState.detectSentiment],
         [SfState.detectLanguage, SfState.formatResult,
          SfState.translateNonPTLanguage, SfState.translateText,
          SfState.formatTranslatedResult, SfState.detectSentiment]] := by
  refine ⟨?_, rfl, ?_, rfl⟩
  · have hgen : ∀ s u : SfState, PathEnd s u → u = SfState.detectSentiment := by
      intro s u h
      induction h with
      | last s hs => cases s <;> simp_all [nextStates]
      | step s t u ht hp ih => exact ih
    exact fun u h => hgen SfState.detectLanguage u h
  · intro s hs
    cases s <;> simp_all [nextStates]

/-- Witness for C8: a concrete complete walk through the translation branch
ends at DetectSentiment. -/
theorem c8_graph_is_chain_ending_at_sentiment_witness :
    SfState.detectSentiment = SfState.detectSentiment :=
  c8_graph_is_chain_ending_at_sentiment.1 SfState.detectSentiment
    (PathEnd.step SfState.detectLanguage SfState.formatResult
      SfState.detectSentiment (by decide)
      (PathEnd.step SfState.formatResult SfState.translateNonPTLanguage
        SfState.detectSentiment (by decide)
        (PathEnd.step SfState.translateNonPTLanguage SfState.translateText
          SfState.detectSentiment (by decide)
          (PathEnd.step SfState.translateText SfState.formatTranslatedResult
            SfState.detectSentiment (by decide)
            (PathEnd.step SfState.formatTranslatedResult SfState.detectSentiment
              SfState.detectSentiment (by decide)
              (PathEnd.last SfState.detectSentiment rfl))))))

/-! ## Claims about the Pass projections -/

/-- Claim C6 (counterexample): applying the FormatResult mapping twice to
this document is not the same as applying it once — the second application
fails because the first one's output no longer carries `txt` or `result`. -/
theorem c6_projection_twice_differs_counterexample :
    ((formatResult (Json.jobj
        [("txt", Json.jstr "oi"),
         ("result", Json.jobj [("Languages", Json.jarr
            [Json.jobj [("LanguageCode", Json.jstr "pt"),
                        ("Score", Json.jnum 99)]])])])).bind formatResult)
      ≠ formatResult (Json.jobj
        [("txt", Json.jstr "oi"),
         ("result", Json.jobj [("Languages", Json.jarr
            [Json.jobj [("LanguageCode", Json.jstr "pt"),
                        ("Score", Json.jnum 99)]])])]) := by
  intro h
  exact Option.noConfusion h

/-- Claim C6 (amended): the two Pass mappings are not idempotent — whenever
either mapping succeeds on a document, its output is exactly
`{Text, Language}`, which lacks the paths both mappings read (`$.txt`,
`$.result...`), so a second application of either mapping fails instead of
reproducing the result. -/
theorem c6_second_application_always_fails (d d' : Json)
    (h : formatResult d = some d' ∨ formatTranslatedResult d = some d') :
    formatResult d' = none ∧ formatTranslatedResult d' = none := by
  have hshape : ∃ t lang, d' = Json.jobj [("Text", t), ("Language", lang)] := by
    rcases h with h | h
    · unfold formatResult at h
      split at h
      · exact ⟨_, _, (Option.some.inj h).symm⟩
      · exact absurd h (by simp)
    · unfold formatTranslatedResult at h
      split at h
      · exact ⟨_, _, (Option.some.inj h).symm⟩
      · exact absurd h (by simp)
  obtain ⟨t, lang, rfl⟩ := hshape
  exact ⟨rfl, rfl⟩

/-- Witness for the amended C6 at a concrete document. -/
theorem c6_second_application_always_fails_witness :
    formatResult (Json.jobj [("Text", Json.jstr "oi"),
                             ("Language", Json.jstr "pt")]) = none :=
  (c6_second_application_always_fails
    (Json.jobj
      [("txt", Json.jstr "oi"),
       ("result", Json.jobj [("Languages", Json.jarr
          [Json.jobj [("LanguageCode", Json.jstr "pt"),
                      ("Score", Json.jnum 99)]])])])
    (Json.jobj [("Text", Json.jstr "oi"), ("Language", Json.jstr "pt")])
    (Or.inl rfl)).1

/-! ## Claims about the tasks' data merging -/

/-- Claim C10: the `resultPath '$.result'` / `outputPath '$'` tasks
(DetectDominantLanguage and TranslateText) write the capability response only
under `result`: every field of the input document other than `result` — in
particular `txt` — is unchanged in the output document. -/
theorem c10_tasks_write_only_result_field (cap : String → Json)
    (capT : Json → Json) (d d' : Json)
    (h : detectLanguage cap d = some d' ∨ translateText capT d = some d') :
    (∀ k, k ≠ "result" → d'.getField k = d.getField k)
    ∧ d'.getField "txt" = d.getField "txt" := by
  have hset : ∃ v, d.setField "result" v = some d' := by
    rcases h with h | h
    · unfold detectLanguage at h
      split at h
      · exact ⟨_, h⟩
      · exact absurd h (by simp)
    · unfold translateText at h
      split at h
      · exact ⟨_, h⟩
      · exact absurd h (by simp)
  obtain ⟨v, hv⟩ := hset
  exact ⟨fun k hk => getField_setField_ne d d' "result" v hv k hk,
    getField_setField_ne d d' "result" v hv "txt" (by decide)⟩

/-- Witness for C10: merging a concrete detector reply leaves `txt` intact. -/
theorem c10_tasks_write_only_result_field_witness :
    (Json.jobj [("txt", Json.jstr "oi"),
                ("result", Json.jnull)]).getField "txt"
      = (Json.jobj [("txt", Json.jstr "oi")]).getField "txt" :=
  (c10_tasks_write_only_result_field (fun _ => Json.jnull) (fun _ => Json.jnull)
    (Json.jobj [("txt", Json.jstr "oi")])
    (Json.jobj [("txt", Json.jstr "oi"), ("result", Json.jnull)])
    (Or.inl rfl)).2

/-! ## Claim about the translation invariant -/

/-- Claim C3: every document entering DetectSentiment — whether routed
directly by the `pt` rule of the Choice or through TranslateText followed by
FormatTranslatedResult — carries `Language = "pt"`; the translation
capability is only assumed to echo the requested `TargetLanguageCode`, which
the task fixes to the literal `"pt"`. -/
theorem c3_language_pt_entering_sentiment (cap : Json → Json)
    (hcap : ∀ req : Json, (cap req).getField "TargetLanguageCode"
              = req.getField "TargetLanguageCode")
    (d d' : Json) (h : docEnteringSentiment cap d = some d') :
    d'.getField "Language" = some (Json.jstr "pt") := by
  cases hpt : stringEqualsLanguagePT d with
  | true =>
      have hev : evalChoice translateNonPTLanguageRules d
          = some SfState.detectSentiment := by
        simp [evalChoice, translateNonPTLanguageRules, hpt]
      unfold docEnteringSentiment at h
      rw [hev] at h
      obtain rfl := Option.some.inj h
      unfold stringEqualsLanguagePT at hpt
      split at hpt
      · rename_i s heq
        simp only [beq_iff_eq] at hpt
        rw [heq, hpt]
      · exact absurd hpt (by simp)
  | false =>
      have hev : evalChoice translateNonPTLanguageRules d
          = some SfState.translateText := by
        simp [evalChoice, translateNonPTLanguageRules, hpt]
      unfold docEnteringSentiment at h
      rw [hev] at h
      have h' : (translateText cap d).bind formatTranslatedResult = some d' := h
      cases htr : translateText cap d with
      | none => rw [htr] at h'; exact absurd h' (by simp)
      | some dm =>
          rw [htr] at h'
          have h2 : formatTranslatedResult dm = some d' := h'
          unfold translateText at htr
          split at htr
          · rename_i t l ht hl
            have hres : dm.getField "result"
                = some (cap (Json.jobj
                    [("Text", Json.jstr t),
                     ("SourceLanguageCode", Json.jstr l),
                     ("TargetLanguageCode", Json.jstr "pt")])) :=
              getField_setField_self d dm "result" _ htr
            have htl : (dm.getField "result").bind
                (fun r => r.getField "TargetLanguageCode")
                = some (Json.jstr "pt") := by
              rw [hres]
              show (cap (Json.jobj
                  [("Text", Json.jstr t),
                   ("SourceLanguageCode", Json.jstr l),
                   ("TargetLanguageCode", Json.jstr "pt")])).getField
                    "TargetLanguageCode"
                = some (Json.jstr "pt")
              rw [hcap]
              rfl
            unfold formatTranslatedResult at h2
            rw [htl] at h2
            split at h2
            · rename_i tt lang htt hlang
              obtain rfl := (Option.some.inj hlang).symm
              obtain rfl := Option.some.inj h2
              rfl
            · exact absurd h2 (by simp)
          · exact absurd htr (by simp)

/-- Witness for C3 on the direct `pt` branch with the identity capability
(which trivially satisfies the echo contract). -/
theorem c3_language_pt_entering_sentiment_witness :
    (Json.jobj [("Text", Json.jstr "eu amo isso"),
                ("Language", Json.jstr "pt")]).getField "Language"
      = some (Json.jstr "pt") :=
  c3_language_pt_entering_sentiment (fun req => req) (fun _ => rfl)
    (Json.jobj [("Text", Json.jstr "eu amo isso"),
                ("Language", Json.jstr "pt")])
    (Json.jobj [("Text", Json.jstr "eu amo isso"),
                ("Language", Json.jstr "pt")])
    rfl

/-! ## Claim about the language selection -/

/-- Claim C5: when the language-identification capability returns a
non-empty list sorted by score descending, the `Language` selected by the
FormatResult projection equals the code of the maximum-score entry (the
head of the list), and the projection renames `txt` to `Text`. -/
theorem c5_selected_language_is_top_scored (l : List (String × Int))
    (hne : l ≠ []) (hsort : l.Pairwise (fun a b => b.2 ≤ a.2))
    (d d' : Json)
    (h : afterDetection (fun _ => detectorResponse l) d = some d') :
    d'.getField "Language" = some (Json.jstr (l.head hne).1)
    ∧ (∀ p ∈ l, p.2 ≤ (l.head hne).2)
    ∧ d'.getField "Text" = d.getField "txt" := by
  obtain ⟨a, t, rfl⟩ : ∃ a t, l = a :: t := by
    cases l with
    | nil => exact absurd rfl hne
    | cons a t => exact ⟨a, t, rfl⟩
  have hmax : ∀ p ∈ a :: t, p.2 ≤ ((a :: t).head hne).2 := by
    intro p hp
    rcases List.mem_cons.mp hp with rfl | hp
    · exact le_refl _
    · exact (List.pairwise_cons.mp hsort).1 p hp
  unfold afterDetection detectLanguage at h
  cases hs : d.getStr "txt" with
  | none => rw [hs] at h; exact absurd h (by simp)
  | some s =>
      rw [hs] at h
      have hbind : (d.setField "result" (detectorResponse (a :: t))).bind
          formatResult = some d' := h
      cases hset : d.setField "result" (detectorResponse (a :: t)) with
      | none => rw [hset] at hbind; exact absurd hbind (by simp)
      | some dm =>
          rw [hset] at hbind
          have h2 : formatResult dm = some d' := hbind
          have hres : dm.getField "result" = some (detectorResponse (a :: t)) :=
            getField_setField_self d dm "result" _ hset
          have htxt : dm.getField "txt" = d.getField "txt" :=
            getField_setField_ne d dm "result" _ hset "txt" (by decide)
          have hdtxt : d.getField "txt" = some (Json.jstr s) := by
            unfold Json.getStr at hs
            split at hs
            · rename_i s' heq
              rw [heq, Option.some.inj hs]
            · exact absurd hs (by simp)
          have hlang : (dm.getField "result").bind (fun r =>
              (r.getField "Languages").bind (fun ls =>
                (ls.getIndex 0).bind (fun e => e.getField "LanguageCode")))
              = some (Json.jstr a.1) := by
            rw [hres]
            rfl
          unfold formatResult at h2
          rw [htxt, hdtxt, hlang] at h2
          obtain rfl := Option.some.inj h2
          refine ⟨rfl, hmax, ?_⟩
          rw [hdtxt]
          rfl

/-- Witness for C5 with a concrete two-entry descending list. -/
theorem c5_selected_language_is_top_scored_witness :
    (Json.jobj [("Text", Json.jstr "oi"),
                ("Language", Json.jstr "pt")]).getField "Language"
      = some (Json.jstr "pt") :=
  (c5_selected_language_is_top_scored [("pt", 99), ("en", 1)]
    (by decide) (by decide)
    (Json.jobj [("txt", Json.jstr "oi")])
    (Json.jobj [("Text", Json.jstr "oi"), ("Language", Json.jstr "pt")])
    rfl).1

/-! ## Claim about request validation -/

/-- Claim C7: a request body that is not a JSON object carrying a
string-typed `txt` field fails validation against the PostModel schema; the
gateway then answers with an error response carrying a message, and the
`StartExecution` integration is never consulted — the response is the same
whatever the integration would have replied. -/
theorem c7_invalid_body_rejected_before_start (b : Json)
    (h : ¬ ∃ kvs s, b = Json.jobj kvs ∧ lookupKV kvs "txt" = some (Json.jstr s)) :
    validateAgainst schemaPost b = false
    ∧ (∀ (rid : String) (startExec : Json → Json),
        gatewayProcess startExec rid b
          = HttpResponse.mk 500
              [("requestId", rid), ("message", "invalid request body")])
    ∧ (∀ (rid : String) (s₁ s₂ : Json → Json),
        gatewayProcess s₁ rid b = gatewayProcess s₂ rid b) := by
  have hval : validateAgainst schemaPost b = false := by
    cases hb : validateAgainst schemaPost b with
    | false => rfl
    | true =>
        exfalso
        apply h
        unfold validateAgainst schemaPost at hb
        simp only [List.all_cons, List.all_nil, Bool.and_true,
          Bool.and_eq_true, beq_iff_eq] at hb
        obtain ⟨⟨hty, hreq⟩, hprop⟩ := hb
        cases b with
        | jobj kvs =>
            cases hv : (Json.jobj kvs).getField "txt" with
            | none => rw [hv] at hreq; exact absurd hreq (by simp)
            | some v =>
                rw [hv] at hprop
                cases v with
                | jstr s => exact ⟨kvs, s, rfl, hv⟩
                | jnum n => exact absurd hprop (by simp [jsonTypeOf])
                | jbool bv => exact absurd hprop (by simp [jsonTypeOf])
                | jnull => exact absurd hprop (by simp [jsonTypeOf])
                | jarr xs => exact absurd hprop (by simp [jsonTypeOf])
                | jobj kvs' => exact absurd hprop (by simp [jsonTypeOf])
        | jstr s => exact absurd hty (by simp [jsonTypeOf])
        | jnum n => exact absurd hty (by simp [jsonTypeOf])
        | jbool bv => exact absurd hty (by simp [jsonTypeOf])
        | jnull => exact absurd hty (by simp [jsonTypeOf])
        | jarr xs => exact absurd hty (by simp [jsonTypeOf])
  refine ⟨hval, fun rid startExec => ?_, fun rid s₁ s₂ => ?_⟩
  · unfold gatewayProcess
    rw [hval]
    rfl
  · unfold gatewayProcess
    rw [hval]
    rfl

/-- Witness for C7 at the empty object `{}` (Scenario C). -/
theorem c7_invalid_body_rejected_before_start_witness :
    validateAgainst schemaPost (Json.jobj []) = false
    ∧ gatewayProcess (fun j => j) "r" (Json.jobj [])
        = HttpResponse.mk 500
            [("requestId", "r"), ("message", "invalid request body")] :=
  have hc := c7_invalid_body_rejected_before_start (Json.jobj [])
    (fun hex => by
      obtain ⟨kvs, s, heq, hlk⟩ := hex
      injection heq with hkvs
      rw [← hkvs] at hlk
      exact Option.noConfusion hlk)
  ⟨hc.1, hc.2.1 "r" (fun j => j)⟩
